import Mathlib

/-
Verification of the gintelemetry telemetry-bootstrap library.

This file shallowly embeds the parts of the Go source that the claims
C1-C10 concern:

  * the bounded instrument cache of metrics.go (`getOrCreateMetric`, the
    six public instrument getters, `maxCachedMetrics`),
  * the TTL eviction sweep of exporter.go (`evictStaleMetrics`, `metricTTL`),
  * the run-once shutdown of exporter.go (`Telemetry.Shutdown`),
  * the exporter retry loop of exporter.go (`retryWithBackoff`) and the
    retry-count resolution of config.go (`getExporterRetries`),
  * the per-pipeline shutdown/flush of provider.go (`Providers.Shutdown`,
    `Providers.ForceFlush`),
  * the configuration validation of config.go (`validate`,
    `splitResourceAttributes`, `parseKeyValue`, `trimString`, `copy`).

Concurrency primitives (sync.Map, atomic.Int64, sync.Once) are embedded by
their sequential semantics: a claim about a sequence of calls is settled
against the corresponding sequence of pure state transitions.  Go's int64
is embedded as Int, with explicit wrap-around modulo 2^64 at the one place
where overflow is reachable (the backoff-duration computation).
-/

set_option maxRecDepth 8192

namespace Gintelemetry

/-! ## Instrument cache (metrics.go) -/

/-- `const maxCachedMetrics = 10000` of metrics.go.  The running cache size
is an `atomic.Int64`, so the bound is carried as an `Int`. -/
def maxCachedMetrics : Int := 10000

/-- `metricCacheKey` of metrics.go: the composite cache key
(name, value kind, instrument kind), three Go strings. -/
structure MetricCacheKey where
  name : String
  valueType : String
  metricType : String
deriving DecidableEq

/-- `metricCacheEntry` of metrics.go.  The opaque instrument handle stored
in the `metric any` field is embedded as a natural number identifying the
concrete instrument object that was allocated; `lastUsed` mirrors the
`atomic.Int64` holding a `UnixNano` timestamp. -/
structure MetricCacheEntry where
  metric : Nat
  lastUsed : Int
deriving DecidableEq

/-- One of the three `sync.Map` caches, embedded as an association list. -/
abbrev MetricCache := List (MetricCacheKey × MetricCacheEntry)

/-- `cache.Load(key)` on the association-list embedding: first match wins. -/
def lookupKey (k : MetricCacheKey) : MetricCache → Option MetricCacheEntry
  | [] => none
  | (k2, e) :: t => if k = k2 then some e else lookupKey k t

theorem lookupKey_cons_self (k : MetricCacheKey) (e : MetricCacheEntry)
    (t : MetricCache) : lookupKey k ((k, e) :: t) = some e := by
  simp [lookupKey]

theorem lookupKey_cons_ne (k k2 : MetricCacheKey) (e : MetricCacheEntry)
    (t : MetricCache) (h : k ≠ k2) :
    lookupKey k ((k2, e) :: t) = lookupKey k t := by
  simp [lookupKey, h]

/-- `entry.lastUsed.Store(now)` on a cache hit: the entry object is shared,
so the update is visible through the cache; here the first matching entry
is replaced by one with the new timestamp. -/
def touchKey (k : MetricCacheKey) (now : Int) : MetricCache → MetricCache
  | [] => []
  | (k2, e) :: t =>
      if k = k2 then (k2, { e with lastUsed := now }) :: t
      else (k2, e) :: touchKey k now t

/-- Which of the three `sync.Map` fields of `MetricAPI` a call uses. -/
inductive CacheId where
  | counter
  | gauge
  | histo
deriving DecidableEq

/-- The mutable state shared by all `MetricAPI` calls of one `Telemetry`
instance: the three caches, the shared `metricCacheSize` counter, and an
allocation counter `nextHandle` modelling the identity of instrument
objects returned by `meter.Int64Counter` and friends (each call to an
underlying constructor yields a fresh object). -/
structure MetricState where
  counterCache : MetricCache
  gaugeCache : MetricCache
  histoCache : MetricCache
  cacheSize : Int
  nextHandle : Nat
deriving DecidableEq

/-- The freshly started instance: empty caches, zero tracked size. -/
def initMetricState : MetricState :=
  { counterCache := [], gaugeCache := [], histoCache := [], cacheSize := 0, nextHandle := 0 }

def getCache (s : MetricState) : CacheId → MetricCache
  | .counter => s.counterCache
  | .gauge => s.gaugeCache
  | .histo => s.histoCache

def setCache (s : MetricState) (cid : CacheId) (c : MetricCache) : MetricState :=
  match cid with
  | .counter => { s with counterCache := c }
  | .gauge => { s with gaugeCache := c }
  | .histo => { s with histoCache := c }

/-- `MetricAPI.getOrCreateMetric` of metrics.go, embedded sequentially.

Source shape: `Load` hit updates `lastUsed` and returns the cached handle
(the `cached.(*metricCacheEntry)` type assertion cannot fail here, because
`getOrCreateMetric` is the only writer and only stores entries, so the
mismatch-recovery branch is unreachable in this embedding); on a miss with
`cacheSize >= maxCachedMetrics` the instrument is constructed and returned
without caching; otherwise the instrument is constructed, stored via
`LoadOrStore` (which in a sequential run always stores, since `Load` just
missed), and the size counter is incremented.  `create` is embedded as
allocation of a fresh handle. -/
def getOrCreateMetric (now : Int) (cid : CacheId) (key : MetricCacheKey)
    (s : MetricState) : Nat × MetricState :=
  match lookupKey key (getCache s cid) with
  | some entry =>
      (entry.metric, setCache s cid (touchKey key now (getCache s cid)))
  | none =>
      if maxCachedMetrics ≤ s.cacheSize then
        (s.nextHandle, { s with nextHandle := s.nextHandle + 1 })
      else
        let h := s.nextHandle
        let entry : MetricCacheEntry := { metric := h, lastUsed := now }
        (h, { setCache s cid ((key, entry) :: getCache s cid) with
                cacheSize := s.cacheSize + 1,
                nextHandle := h + 1 })

theorem getOrCreateMetric_hit (now : Int) (cid : CacheId) (key : MetricCacheKey)
    (s : MetricState) (e : MetricCacheEntry)
    (h : lookupKey key (getCache s cid) = some e) :
    getOrCreateMetric now cid key s =
      (e.metric, setCache s cid (touchKey key now (getCache s cid))) := by
  unfold getOrCreateMetric
  rw [h]

theorem getOrCreateMetric_full (now : Int) (cid : CacheId) (key : MetricCacheKey)
    (s : MetricState) (h : lookupKey key (getCache s cid) = none)
    (hfull : maxCachedMetrics ≤ s.cacheSize) :
    getOrCreateMetric now cid key s =
      (s.nextHandle, { s with nextHandle := s.nextHandle + 1 }) := by
  unfold getOrCreateMetric
  rw [h]
  simp [hfull]

theorem getOrCreateMetric_insert (now : Int) (cid : CacheId) (key : MetricCacheKey)
    (s : MetricState) (h : lookupKey key (getCache s cid) = none)
    (hlt : ¬ maxCachedMetrics ≤ s.cacheSize) :
    getOrCreateMetric now cid key s =
      (s.nextHandle,
        { setCache s cid ((key, ⟨s.nextHandle, now⟩) :: getCache s cid) with
            cacheSize := s.cacheSize + 1, nextHandle := s.nextHandle + 1 }) := by
  unfold getOrCreateMetric
  rw [h, if_neg hlt]

namespace MetricAPI

/-- `MetricAPI.Counter` of metrics.go. -/
def Counter (name : String) (now : Int) (s : MetricState) : Nat × MetricState :=
  getOrCreateMetric now .counter ⟨name, "int64", "counter"⟩ s

/-- `MetricAPI.Histogram` of metrics.go. -/
def Histogram (name : String) (now : Int) (s : MetricState) : Nat × MetricState :=
  getOrCreateMetric now .histo ⟨name, "int64", "histogram"⟩ s

/-- `MetricAPI.Gauge` of metrics.go. -/
def Gauge (name : String) (now : Int) (s : MetricState) : Nat × MetricState :=
  getOrCreateMetric now .gauge ⟨name, "int64", "gauge"⟩ s

/-- `MetricAPI.Float64Counter` of metrics.go. -/
def Float64Counter (name : String) (now : Int) (s : MetricState) : Nat × MetricState :=
  getOrCreateMetric now .counter ⟨name, "float64", "counter"⟩ s

/-- `MetricAPI.Float64Histogram` of metrics.go. -/
def Float64Histogram (name : String) (now : Int) (s : MetricState) : Nat × MetricState :=
  getOrCreateMetric now .histo ⟨name, "float64", "histogram"⟩ s

/-- `MetricAPI.Float64Gauge` of metrics.go. -/
def Float64Gauge (name : String) (now : Int) (s : MetricState) : Nat × MetricState :=
  getOrCreateMetric now .gauge ⟨name, "float64", "gauge"⟩ s

end MetricAPI

/-- One instrument lookup through the public `MetricAPI` surface. -/
inductive MetricOp where
  | counter (name : String)
  | gauge (name : String)
  | histogram (name : String)
  | float64Counter (name : String)
  | float64Gauge (name : String)
  | float64Histogram (name : String)
deriving DecidableEq

/-- Dispatch of one public call, at a given `time.Now().UnixNano()`. -/
def applyOp (op : MetricOp) (now : Int) (s : MetricState) : Nat × MetricState :=
  match op with
  | .counter n => MetricAPI.Counter n now s
  | .gauge n => MetricAPI.Gauge n now s
  | .histogram n => MetricAPI.Histogram n now s
  | .float64Counter n => MetricAPI.Float64Counter n now s
  | .float64Gauge n => MetricAPI.Float64Gauge n now s
  | .float64Histogram n => MetricAPI.Float64Histogram n now s

/-- A sequence of instrument lookups, each with its timestamp. -/
def runOps (ops : List (MetricOp × Int)) (s : MetricState) : MetricState :=
  ops.foldl (fun s p => (applyOp p.1 p.2 s).2) s

/-! Basic lemmas about the cache embedding. -/

theorem lookupKey_touchKey_self (k : MetricCacheKey) (now : Int) (c : MetricCache)
    (e : MetricCacheEntry) (h : lookupKey k c = some e) :
    lookupKey k (touchKey k now c) = some { e with lastUsed := now } := by
  induction c with
  | nil => simp [lookupKey] at h
  | cons p t ih =>
      obtain ⟨k2, e2⟩ := p
      by_cases hk : k = k2
      · subst hk
        simp [lookupKey, touchKey] at h ⊢
        simp [h]
      · simp [lookupKey, touchKey, hk] at h ⊢
        exact ih h

theorem getOrCreateMetric_size_le (now : Int) (cid : CacheId) (key : MetricCacheKey)
    (s : MetricState) (h : s.cacheSize ≤ maxCachedMetrics) :
    (getOrCreateMetric now cid key s).2.cacheSize ≤ maxCachedMetrics := by
  unfold getOrCreateMetric
  cases hl : lookupKey key (getCache s cid) with
  | some e =>
      cases cid <;> simpa [setCache] using h
  | none =>
      by_cases hb : maxCachedMetrics ≤ s.cacheSize
      · simpa [hb] using h
      · cases cid <;> simp [hb, setCache] <;> omega

theorem applyOp_size_le (op : MetricOp) (now : Int) (s : MetricState)
    (h : s.cacheSize ≤ maxCachedMetrics) :
    (applyOp op now s).2.cacheSize ≤ maxCachedMetrics := by
  cases op <;>
    exact getOrCreateMetric_size_le _ _ _ _ h

theorem runOps_size_le (ops : List (MetricOp × Int)) (s : MetricState)
    (h : s.cacheSize ≤ maxCachedMetrics) :
    (runOps ops s).cacheSize ≤ maxCachedMetrics := by
  induction ops generalizing s with
  | nil => simpa [runOps] using h
  | cons p t ih =>
      simp only [runOps, List.foldl_cons] at *
      exact ih _ (applyOp_size_le p.1 p.2 s h)

theorem getCache_setCache_same (s : MetricState) (cid : CacheId) (c : MetricCache) :
    getCache (setCache s cid c) cid = c := by
  cases cid <;> rfl

/-- What a lookup for an absent key does once the tracked size has reached
the ceiling: no cache is changed, the tracked size is unchanged, a freshly
constructed instrument is returned, a repeat call constructs yet another
instrument instead of hitting the cache, and every key cached before is
still cached and still returns its cached instrument. -/
def AtCeilingBehavior (s : MetricState) (cid : CacheId) (key : MetricCacheKey)
    (now now2 : Int) : Prop :=
  (getOrCreateMetric now cid key s).2.counterCache = s.counterCache ∧
  (getOrCreateMetric now cid key s).2.gaugeCache = s.gaugeCache ∧
  (getOrCreateMetric now cid key s).2.histoCache = s.histoCache ∧
  (getOrCreateMetric now cid key s).2.cacheSize = s.cacheSize ∧
  (getOrCreateMetric now cid key s).1 = s.nextHandle ∧
  (getOrCreateMetric now2 cid key (getOrCreateMetric now cid key s).2).1 ≠
      (getOrCreateMetric now cid key s).1 ∧
  (∀ cid2 k2 e, lookupKey k2 (getCache s cid2) = some e →
      (getOrCreateMetric now2 cid2 k2 (getOrCreateMetric now cid key s).2).1 = e.metric)

theorem getCache_bump_nextHandle (s : MetricState) (cid : CacheId) :
    getCache { s with nextHandle := s.nextHandle + 1 } cid = getCache s cid := by
  cases cid <;> rfl

theorem atCeiling_of_full (s : MetricState) (cid : CacheId) (key : MetricCacheKey)
    (now now2 : Int) (hfull : maxCachedMetrics ≤ s.cacheSize)
    (habsent : lookupKey key (getCache s cid) = none) :
    AtCeilingBehavior s cid key now now2 := by
  have h1 : getOrCreateMetric now cid key s =
      (s.nextHandle, { s with nextHandle := s.nextHandle + 1 }) := by
    unfold getOrCreateMetric
    rw [habsent]
    simp [hfull]
  have hcaches : ∀ cid2, getCache { s with nextHandle := s.nextHandle + 1 } cid2 =
      getCache s cid2 := fun cid2 => getCache_bump_nextHandle s cid2
  have h2 : getOrCreateMetric now2 cid key { s with nextHandle := s.nextHandle + 1 } =
      (s.nextHandle + 1, { s with nextHandle := s.nextHandle + 2 }) := by
    unfold getOrCreateMetric
    rw [hcaches cid, habsent]
    simp [hfull]
  refine ⟨by rw [h1], by rw [h1], by rw [h1], by rw [h1], by rw [h1], ?_, ?_⟩
  · rw [h1]
    simp only
    rw [h2]
    simp
  · intro cid2 k2 e he
    rw [h1]
    simp only
    unfold getOrCreateMetric
    rw [hcaches cid2, he]

/-! ### A reachable full cache: 10000 distinct counter registrations -/

/-- The i-th distinct instrument name used to fill the cache. -/
def repName (i : Nat) : String := ⟨List.replicate i 'a'⟩

/-- The cache key `MetricAPI.Counter` builds for `repName i`. -/
def cKey (i : Nat) : MetricCacheKey := ⟨repName i, "int64", "counter"⟩

theorem cKey_inj {i j : Nat} (h : cKey i = cKey j) : i = j := by
  have : repName i = repName j := congrArg MetricCacheKey.name h
  have hdata : List.replicate i 'a' = List.replicate j 'a' := congrArg String.data this
  have := congrArg List.length hdata
  simpa using this

/-- The counter cache contents after registering `repName 0 .. repName (n-1)`
in order (entries are prepended, handles are allocated in order). -/
def revBuild : Nat → MetricCache
  | 0 => []
  | n + 1 => (cKey n, ⟨n, 0⟩) :: revBuild n

theorem lookup_revBuild (n i : Nat) :
    lookupKey (cKey i) (revBuild n) = if i < n then some ⟨i, 0⟩ else none := by
  induction n with
  | zero => simp [revBuild, lookupKey]
  | succ n ih =>
      by_cases hij : i = n
      · subst hij
        simp [revBuild, lookupKey]
      · have : cKey i ≠ cKey n := fun hc => hij (cKey_inj hc)
        simp only [revBuild, lookupKey, if_neg this, ih]
        rcases Nat.lt_trichotomy i n with h | h | h
        · simp [h, Nat.lt_succ_of_lt h]
        · exact absurd h hij
        · have h1 : ¬ i < n := by omega
          have h2 : ¬ i < n + 1 := by omega
          simp [h1, h2]

/-- Registering `n` distinct counters, all at timestamp 0. -/
def fillOps (n : Nat) : List (MetricOp × Int) :=
  (List.range n).map (fun i => (MetricOp.counter (repName i), (0 : Int)))

/-- The state after registering `n` distinct counters from a fresh instance. -/
def filledState (n : Nat) : MetricState := runOps (fillOps n) initMetricState

theorem counter_step (c : MetricCache) (sz : Int) (nh : Nat) (name : String)
    (habs : lookupKey ⟨name, "int64", "counter"⟩ c = none)
    (hlt : sz < maxCachedMetrics) :
    MetricAPI.Counter name 0 ⟨c, [], [], sz, nh⟩ =
      (nh, ⟨(⟨name, "int64", "counter"⟩, ⟨nh, 0⟩) :: c, [], [], sz + 1, nh + 1⟩) := by
  unfold MetricAPI.Counter getOrCreateMetric
  have habs2 : lookupKey ⟨name, "int64", "counter"⟩
      (getCache ⟨c, [], [], sz, nh⟩ CacheId.counter) = none := habs
  rw [habs2, if_neg (not_le.mpr hlt)]
  rfl

theorem filledState_eq (n : Nat) (hn : n ≤ 10000) :
    filledState n = ⟨revBuild n, [], [], (n : Int), n⟩ := by
  induction n with
  | zero => rfl
  | succ n ih =>
      have hn' : n ≤ 10000 := Nat.le_of_succ_le hn
      have hsplit : filledState (n + 1) =
          (applyOp (MetricOp.counter (repName n)) 0 (filledState n)).2 := by
        unfold filledState fillOps runOps
        rw [List.range_succ, List.map_append, List.foldl_append]
        rfl
      have habs : lookupKey (⟨repName n, "int64", "counter"⟩ : MetricCacheKey)
          (revBuild n) = none := by
        show lookupKey (cKey n) (revBuild n) = none
        simp [lookup_revBuild]
      have hlt : (n : Int) < maxCachedMetrics := by
        unfold maxCachedMetrics
        exact_mod_cast (by omega : n < 10000)
      rw [hsplit, ih hn']
      show (MetricAPI.Counter (repName n) 0 _).2 = _
      rw [counter_step (revBuild n) (n : Int) n (repName n) habs hlt]
      show (⟨(cKey n, ⟨n, 0⟩) :: revBuild n, [], [], (n : Int) + 1, n + 1⟩ : MetricState) = _
      have hsz : ((n : Int)) + 1 = ((n + 1 : Nat) : Int) := by push_cast; ring
      rw [hsz]
      rfl

theorem filledState_10000_full :
    filledState 10000 = ⟨revBuild 10000, [], [], (10000 : Int), 10000⟩ :=
  filledState_eq 10000 le_rfl

theorem getCache_insertState (s : MetricState) (cid : CacheId) (c : MetricCache)
    (z : Int) (m : Nat) :
    getCache { setCache s cid c with cacheSize := z, nextHandle := m } cid = c := by
  cases cid <;> rfl

/-- Claim C1: across every sequence of instrument lookups through the
`MetricAPI` getters, the tracked cache size never exceeds the 10000
ceiling; and once the tracked size is at (or above) the ceiling, a lookup
for an absent key inserts nothing, returns a freshly constructed
instrument, a repeat call constructs yet another instrument instead of
hitting the cache, and every previously cached key remains cached and
hit-able. -/
theorem c1_cache_bounded :
    (∀ ops : List (MetricOp × Int),
      (runOps ops initMetricState).cacheSize ≤ maxCachedMetrics) ∧
    (∀ (s : MetricState) (cid : CacheId) (key : MetricCacheKey) (now now2 : Int),
      maxCachedMetrics ≤ s.cacheSize →
      lookupKey key (getCache s cid) = none →
      AtCeilingBehavior s cid key now now2) := by
  constructor
  · intro ops
    exact runOps_size_le ops _ (by norm_num [initMetricState, maxCachedMetrics])
  · intro s cid key now now2 hfull habs
    exact atCeiling_of_full s cid key now now2 hfull habs

/-- Witness for C1: the at-ceiling clause applied to the concrete state
reached by registering 10000 distinct counters, with an absent key. -/
theorem c1_cache_bounded_witness :
    AtCeilingBehavior (filledState 10000) CacheId.counter (cKey 10000) 0 0 := by
  apply c1_cache_bounded.2
  · rw [filledState_10000_full]
    norm_num [maxCachedMetrics]
  · rw [filledState_10000_full]
    show lookupKey (cKey 10000) (revBuild 10000) = none
    simp [lookup_revBuild]

/-- Claim C8, amended: two sequential calls for the same key return the
same cached handle with a refreshed timestamp, provided the key is cached
or the tracked size is below the ceiling at the first call. -/
theorem c8_cache_hit_amended (s : MetricState) (cid : CacheId) (key : MetricCacheKey)
    (t1 t2 : Int) (h12 : t1 ≤ t2)
    (hok : lookupKey key (getCache s cid) ≠ none ∨ s.cacheSize < maxCachedMetrics) :
    (getOrCreateMetric t2 cid key (getOrCreateMetric t1 cid key s).2).1 =
        (getOrCreateMetric t1 cid key s).1 ∧
    ∃ e1 e2,
      lookupKey key (getCache (getOrCreateMetric t1 cid key s).2 cid) = some e1 ∧
      lookupKey key
        (getCache (getOrCreateMetric t2 cid key (getOrCreateMetric t1 cid key s).2).2 cid) =
          some e2 ∧
      e1.lastUsed = t1 ∧ e2.lastUsed = t2 ∧ e1.lastUsed ≤ e2.lastUsed := by
  cases hl : lookupKey key (getCache s cid) with
  | some e =>
      have h1 : getOrCreateMetric t1 cid key s =
          (e.metric, setCache s cid (touchKey key t1 (getCache s cid))) :=
        getOrCreateMetric_hit t1 cid key s e hl
      have hc1 : getCache (getOrCreateMetric t1 cid key s).2 cid =
          touchKey key t1 (getCache s cid) := by
        rw [h1]
        exact getCache_setCache_same s cid _
      have he1 : lookupKey key (getCache (getOrCreateMetric t1 cid key s).2 cid) =
          some { e with lastUsed := t1 } := by
        rw [hc1]
        exact lookupKey_touchKey_self key t1 _ e hl
      have h2 : getOrCreateMetric t2 cid key (getOrCreateMetric t1 cid key s).2 =
          (e.metric,
            setCache (getOrCreateMetric t1 cid key s).2 cid
              (touchKey key t2 (getCache (getOrCreateMetric t1 cid key s).2 cid))) := by
        have := getOrCreateMetric_hit t2 cid key (getOrCreateMetric t1 cid key s).2
          { e with lastUsed := t1 } he1
        simpa using this
      have he2 : lookupKey key
          (getCache (getOrCreateMetric t2 cid key (getOrCreateMetric t1 cid key s).2).2 cid) =
            some { e with lastUsed := t2 } := by
        rw [h2]
        show lookupKey key
          (getCache (setCache (getOrCreateMetric t1 cid key s).2 cid _) cid) = _
        rw [getCache_setCache_same]
        exact lookupKey_touchKey_self key t2 _ { e with lastUsed := t1 } he1
      refine ⟨by rw [h2, h1], ⟨{ e with lastUsed := t1 }, { e with lastUsed := t2 },
        he1, he2, rfl, rfl, h12⟩⟩
  | none =>
      have hlt : s.cacheSize < maxCachedMetrics := by
        rcases hok with h | h
        · exact absurd hl h
        · exact h
      have h1 : getOrCreateMetric t1 cid key s =
          (s.nextHandle,
            { setCache s cid ((key, ⟨s.nextHandle, t1⟩) :: getCache s cid) with
                cacheSize := s.cacheSize + 1, nextHandle := s.nextHandle + 1 }) :=
        getOrCreateMetric_insert t1 cid key s hl (not_le.mpr hlt)
      have he1 : lookupKey key (getCache (getOrCreateMetric t1 cid key s).2 cid) =
          some ⟨s.nextHandle, t1⟩ := by
        rw [h1]
        show lookupKey key
          (getCache { setCache s cid _ with
            cacheSize := s.cacheSize + 1, nextHandle := s.nextHandle + 1 } cid) = _
        rw [getCache_insertState]
        simp [lookupKey]
      have h2 : getOrCreateMetric t2 cid key (getOrCreateMetric t1 cid key s).2 =
          (s.nextHandle,
            setCache (getOrCreateMetric t1 cid key s).2 cid
              (touchKey key t2 (getCache (getOrCreateMetric t1 cid key s).2 cid))) := by
        have := getOrCreateMetric_hit t2 cid key (getOrCreateMetric t1 cid key s).2
          ⟨s.nextHandle, t1⟩ he1
        simpa using this
      have he2 : lookupKey key
          (getCache (getOrCreateMetric t2 cid key (getOrCreateMetric t1 cid key s).2).2 cid) =
            some ⟨s.nextHandle, t2⟩ := by
        rw [h2]
        show lookupKey key
          (getCache (setCache (getOrCreateMetric t1 cid key s).2 cid _) cid) = _
        rw [getCache_setCache_same]
        exact lookupKey_touchKey_self key t2 _ ⟨s.nextHandle, t1⟩ he1
      refine ⟨by rw [h2, h1], ⟨⟨s.nextHandle, t1⟩, ⟨s.nextHandle, t2⟩,
        he1, he2, rfl, rfl, h12⟩⟩

/-- Witness for C8's amended statement: a fresh instance, one key, two
calls at times 1 and 2. -/
theorem c8_cache_hit_amended_witness :
    (getOrCreateMetric 2 CacheId.counter ⟨"x", "int64", "counter"⟩
        (getOrCreateMetric 1 CacheId.counter ⟨"x", "int64", "counter"⟩ initMetricState).2).1 =
      (getOrCreateMetric 1 CacheId.counter ⟨"x", "int64", "counter"⟩ initMetricState).1 ∧
    ∃ e1 e2,
      lookupKey (⟨"x", "int64", "counter"⟩ : MetricCacheKey)
        (getCache (getOrCreateMetric 1 CacheId.counter ⟨"x", "int64", "counter"⟩
          initMetricState).2 CacheId.counter) = some e1 ∧
      lookupKey (⟨"x", "int64", "counter"⟩ : MetricCacheKey)
        (getCache (getOrCreateMetric 2 CacheId.counter ⟨"x", "int64", "counter"⟩
          (getOrCreateMetric 1 CacheId.counter ⟨"x", "int64", "counter"⟩
            initMetricState).2).2 CacheId.counter) = some e2 ∧
      e1.lastUsed = 1 ∧ e2.lastUsed = 2 ∧ e1.lastUsed ≤ e2.lastUsed :=
  c8_cache_hit_amended initMetricState CacheId.counter ⟨"x", "int64", "counter"⟩ 1 2
    (by decide) (Or.inr (by decide))

/-- Counterexample for C8 as frozen: on the reachable instance holding
10000 distinct cached counters, two sequential `Counter` calls for the
same absent name return two different (uncached) instrument handles. -/
theorem c8_counterexample :
    (MetricAPI.Counter (repName 10000) 0
        (MetricAPI.Counter (repName 10000) 0 (filledState 10000)).2).1 ≠
      (MetricAPI.Counter (repName 10000) 0 (filledState 10000)).1 := by
  have hfull : maxCachedMetrics ≤ (filledState 10000).cacheSize := by
    rw [filledState_10000_full]
    norm_num [maxCachedMetrics]
  have habs : lookupKey (cKey 10000) (getCache (filledState 10000) CacheId.counter) = none := by
    rw [filledState_10000_full]
    show lookupKey (cKey 10000) (revBuild 10000) = none
    simp [lookup_revBuild]
  exact (atCeiling_of_full (filledState 10000) CacheId.counter (cKey 10000) 0 0
    hfull habs).2.2.2.2.2.1

/-! ## TTL eviction sweep (exporter.go, `Telemetry.evictStaleMetrics`) -/

/-- `metricTTL = 1 * time.Hour` of exporter.go, in nanoseconds. -/
def metricTTL : Int := 3600000000000

/-- Whether one cache entry is stale at the given cutoff:
`entry.lastUsed.Load() < cutoff` in the source. -/
def staleAt (cutoff : Int) (p : MetricCacheKey × MetricCacheEntry) : Bool :=
  decide (p.2.lastUsed < cutoff)

/-- The stale entries one sweep at `now` would count, over all three caches
(the sweep visits counterCache, histoCache, gaugeCache). -/
def evictedCount (now : Int) (s : MetricState) : Nat :=
  s.counterCache.countP (staleAt (now - metricTTL)) +
    s.histoCache.countP (staleAt (now - metricTTL)) +
    s.gaugeCache.countP (staleAt (now - metricTTL))

/-- `Telemetry.evictStaleMetrics` of exporter.go: compute the cutoff
`time.Now().UnixNano() - int64(metricTTL)`, delete every entry whose
`lastUsed` is older than the cutoff from the three caches, and — only when
at least one entry was deleted — subtract the deletion count from the
tracked size and emit the debug summary `("evicted", evicted, "remaining",
metricCacheSize.Load())`, returned here as `some (evicted, remaining)`. -/
def evictStaleMetrics (now : Int) (s : MetricState) : MetricState × Option (Nat × Int) :=
  let cutoff := now - metricTTL
  let c1 := s.counterCache.filter (fun p => ! staleAt cutoff p)
  let h1 := s.histoCache.filter (fun p => ! staleAt cutoff p)
  let g1 := s.gaugeCache.filter (fun p => ! staleAt cutoff p)
  let evicted := s.counterCache.countP (staleAt cutoff) +
    s.histoCache.countP (staleAt cutoff) + s.gaugeCache.countP (staleAt cutoff)
  if 0 < evicted then
    (⟨c1, g1, h1, s.cacheSize - (evicted : Int), s.nextHandle⟩,
      some (evicted, s.cacheSize - (evicted : Int)))
  else
    (⟨c1, g1, h1, s.cacheSize, s.nextHandle⟩, none)

/-- Keys are pairwise distinct in each cache — true of every reachable
state, since `getOrCreateMetric` inserts only after a failed lookup. -/
def WfCaches (s : MetricState) : Prop :=
  (s.counterCache.map Prod.fst).Nodup ∧ (s.gaugeCache.map Prod.fst).Nodup ∧
    (s.histoCache.map Prod.fst).Nodup

theorem lookupKey_eq_none_of_not_mem (k : MetricCacheKey) (c : MetricCache)
    (h : k ∉ c.map Prod.fst) : lookupKey k c = none := by
  induction c with
  | nil => rfl
  | cons p t ih =>
      obtain ⟨k2, e2⟩ := p
      simp only [List.map_cons, List.mem_cons] at h
      push_neg at h
      simp only [lookupKey, if_neg h.1]
      exact ih h.2

theorem lookupKey_filter_keep (k : MetricCacheKey) (c : MetricCache)
    (e : MetricCacheEntry) (q : MetricCacheKey × MetricCacheEntry → Bool)
    (h : lookupKey k c = some e) (hq : q (k, e) = true) :
    lookupKey k (c.filter q) = some e := by
  induction c with
  | nil => simp [lookupKey] at h
  | cons p t ih =>
      obtain ⟨k2, e2⟩ := p
      by_cases hk : k = k2
      · subst hk
        rw [lookupKey_cons_self] at h
        obtain rfl : e2 = e := by injection h
        rw [List.filter_cons, if_pos hq]
        exact lookupKey_cons_self _ _ _
      · rw [lookupKey_cons_ne k k2 e2 t hk] at h
        rw [List.filter_cons]
        by_cases hq2 : q (k2, e2) = true
        · rw [if_pos hq2, lookupKey_cons_ne k k2 e2 _ hk]
          exact ih h
        · rw [if_neg hq2]
          exact ih h

theorem lookupKey_filter_drop (k : MetricCacheKey) (c : MetricCache)
    (e : MetricCacheEntry) (q : MetricCacheKey × MetricCacheEntry → Bool)
    (hnd : (c.map Prod.fst).Nodup)
    (h : lookupKey k c = some e) (hq : q (k, e) = false) :
    lookupKey k (c.filter q) = none := by
  induction c with
  | nil => simp [lookupKey] at h
  | cons p t ih =>
      obtain ⟨k2, e2⟩ := p
      simp only [List.map_cons, List.nodup_cons] at hnd
      by_cases hk : k = k2
      · subst hk
        rw [lookupKey_cons_self] at h
        obtain rfl : e2 = e := by injection h
        rw [List.filter_cons, if_neg (by simp [hq])]
        apply lookupKey_eq_none_of_not_mem
        intro hmem
        exact hnd.1 (by
          rcases List.mem_map.mp hmem with ⟨p2, hp2, hfst⟩
          exact List.mem_map.mpr ⟨p2, List.mem_of_mem_filter hp2, hfst⟩)
      · rw [lookupKey_cons_ne k k2 e2 t hk] at h
        rw [List.filter_cons]
        by_cases hq2 : q (k2, e2) = true
        · rw [if_pos hq2, lookupKey_cons_ne k k2 e2 _ hk]
          exact ih hnd.2 h
        · rw [if_neg hq2]
          exact ih hnd.2 h

/-- What one eviction sweep at `now` does, as used by claim C9: each
cached entry older than the cutoff is gone afterwards, each entry at or
after the cutoff survives unchanged, the tracked size drops by exactly
the number of removed entries, and the debug summary (evicted count and
remaining tracked size) is produced exactly when something was removed. -/
def EvictionSpec (s : MetricState) (now : Int) : Prop :=
  (∀ cid k e, lookupKey k (getCache s cid) = some e →
      ((e.lastUsed < now - metricTTL →
          lookupKey k (getCache (evictStaleMetrics now s).1 cid) = none) ∧
        (now - metricTTL ≤ e.lastUsed →
          lookupKey k (getCache (evictStaleMetrics now s).1 cid) = some e))) ∧
  (evictStaleMetrics now s).1.cacheSize = s.cacheSize - evictedCount now s ∧
  (evictStaleMetrics now s).2 =
    (if 0 < evictedCount now s then
      some (evictedCount now s, s.cacheSize - evictedCount now s)
    else none)

theorem getCache_evict (now : Int) (s : MetricState) (cid : CacheId) :
    getCache (evictStaleMetrics now s).1 cid =
      (getCache s cid).filter (fun p => ! staleAt (now - metricTTL) p) := by
  unfold evictStaleMetrics
  by_cases h : 0 < s.counterCache.countP (staleAt (now - metricTTL)) +
      s.histoCache.countP (staleAt (now - metricTTL)) +
      s.gaugeCache.countP (staleAt (now - metricTTL))
  · simp only [h, if_true]
    cases cid <;> rfl
  · simp only [h, if_false]
    cases cid <;> rfl

/-- Claim C9: the eviction sweep removes exactly the entries older than
the one-hour cutoff, decrements the tracked size by the number removed,
keeps entries touched at or after the cutoff, and logs the debug summary
only when at least one entry was removed. -/
theorem c9_eviction_sweep (s : MetricState) (now : Int) (hwf : WfCaches s) :
    EvictionSpec s now := by
  obtain ⟨hc, hg, hh⟩ := hwf
  refine ⟨?_, ?_, ?_⟩
  · intro cid k e hl
    constructor
    · intro hold
      rw [getCache_evict]
      have hndc : ((getCache s cid).map Prod.fst).Nodup := by
        cases cid
        · exact hc
        · exact hg
        · exact hh
      apply lookupKey_filter_drop k _ e _ hndc hl
      simp [staleAt, hold]
    · intro hfresh
      rw [getCache_evict]
      apply lookupKey_filter_keep k _ e _ hl
      simp [staleAt, not_lt.mpr hfresh]
  · unfold evictStaleMetrics evictedCount
    by_cases h : 0 < s.counterCache.countP (staleAt (now - metricTTL)) +
        s.histoCache.countP (staleAt (now - metricTTL)) +
        s.gaugeCache.countP (staleAt (now - metricTTL))
    · simp only [h, if_true]
    · simp only [h, if_false]
      have h0 : s.counterCache.countP (staleAt (now - metricTTL)) +
          s.histoCache.countP (staleAt (now - metricTTL)) +
          s.gaugeCache.countP (staleAt (now - metricTTL)) = 0 := by omega
      simp [h0]
  · unfold evictStaleMetrics evictedCount
    by_cases h : 0 < s.counterCache.countP (staleAt (now - metricTTL)) +
        s.histoCache.countP (staleAt (now - metricTTL)) +
        s.gaugeCache.countP (staleAt (now - metricTTL))
    · simp only [h, if_true]
    · simp only [h, if_false]

/-- Witness for C9: a cache with one stale entry (last used at time 5)
and one fresh entry (last used at the cutoff), swept at
`now = metricTTL + 10` so the cutoff is 10. -/
theorem c9_eviction_sweep_witness :
    EvictionSpec
      ⟨[(⟨"old", "int64", "counter"⟩, ⟨0, 5⟩), (⟨"new", "int64", "counter"⟩, ⟨1, 10⟩)],
        [], [], 2, 2⟩
      (metricTTL + 10) :=
  c9_eviction_sweep _ _ (by unfold WfCaches; refine ⟨by decide, by decide, by decide⟩)

/-! ## Run-once shutdown (exporter.go, `Telemetry.Shutdown`) -/

/-- The shutdown-related state of a `Telemetry` handle: the `sync.Once`
guard (`done`), the recorded `shutdownErr`, and — for the claim about how
often the real work runs — a count of how many times the once-body has
executed. -/
structure ShutdownState where
  done : Bool
  shutdownErr : Option String
  workCount : Nat
deriving DecidableEq

def initShutdownState : ShutdownState := ⟨false, none, 0⟩

/-- `Telemetry.Shutdown` of exporter.go, embedded sequentially: the
`sync.Once` body (cancel the eviction loop, run `providers.Shutdown`,
record the result in `shutdownErr`) runs only if it has not run yet, and
every call returns the recorded `shutdownErr`.  `providerResult k` is the
error the underlying `providers.Shutdown(ctx)` would return on its k-th
actual execution. -/
def telemetryShutdown (providerResult : Nat → Option String)
    (s : ShutdownState) : ShutdownState × Option String :=
  if s.done then
    (s, s.shutdownErr)
  else
    let e := providerResult s.workCount
    (⟨true, e, s.workCount + 1⟩, e)

/-- `N` sequential `Shutdown` calls from a freshly started handle,
returning the final state and the list of returned results. -/
def runShutdownCalls (providerResult : Nat → Option String) :
    Nat → ShutdownState × List (Option String)
  | 0 => (initShutdownState, [])
  | n + 1 =>
      let r := runShutdownCalls providerResult n
      let r2 := telemetryShutdown providerResult r.1
      (r2.1, r.2 ++ [r2.2])

theorem runShutdownCalls_state (providerResult : Nat → Option String) (n : Nat)
    (hn : 1 ≤ n) :
    (runShutdownCalls providerResult n).1 = ⟨true, providerResult 0, 1⟩ ∧
      (runShutdownCalls providerResult n).2 =
        List.replicate n (providerResult 0) := by
  induction n with
  | zero => omega
  | succ n ih =>
      by_cases h0 : n = 0
      · subst h0
        simp [runShutdownCalls, telemetryShutdown, initShutdownState, List.replicate]
      · have hn' : 1 ≤ n := by omega
        obtain ⟨hst, hres⟩ := ih hn'
        simp only [runShutdownCalls, hst, hres, telemetryShutdown]
        simp [List.replicate_succ']

/-- Claim C2: calling `Shutdown` N ≥ 1 times performs the underlying
provider shutdown exactly once, and every call returns the result the
first invocation recorded. -/
theorem c2_shutdown_idempotent (providerResult : Nat → Option String) (n : Nat)
    (hn : 1 ≤ n) :
    (runShutdownCalls providerResult n).1.workCount = 1 ∧
      (runShutdownCalls providerResult n).2 =
        List.replicate n (providerResult 0) := by
  obtain ⟨hst, hres⟩ := runShutdownCalls_state providerResult n hn
  exact ⟨by rw [hst], hres⟩

/-- Witness for C2: three calls against a provider shutdown that fails
with "boom" on its first execution and would succeed afterwards. -/
theorem c2_shutdown_idempotent_witness :
    (runShutdownCalls (fun k => if k = 0 then some "boom" else none) 3).1.workCount = 1 ∧
      (runShutdownCalls (fun k => if k = 0 then some "boom" else none) 3).2 =
        List.replicate 3 (some "boom") := by
  have h := c2_shutdown_idempotent (fun k => if k = 0 then some "boom" else none) 3
    (by omega)
  simpa using h

/-! ## Exporter construction retry (exporter.go `retryWithBackoff`,
config.go `getExporterRetries`) -/

/-- `Config.getExporterRetries` of config.go: a positive `ExporterRetries`
is used as-is, anything else (including an explicit 0) resolves to the
default 3. -/
def getExporterRetries (exporterRetries : Int) : Int :=
  if 0 < exporterRetries then exporterRetries else 3

/-- Outcome of `retryWithBackoff` (and of a direct constructor call):
success, `"context cancelled before attempt %d"`, `"context cancelled
during backoff"` after the given attempt, `"failed after %d attempts"`
wrapping the last attempt's error, or — for the non-retry path — the
constructor's error returned unwrapped. -/
inductive RetryResult where
  | success
  | cancelledBefore (attempt : Nat)
  | cancelledDuring (attempt : Nat)
  | failedAfter (attempts : Nat) (lastErr : String)
  | directFailure (err : String)
deriving DecidableEq

/-- The loop body of `retryWithBackoff`, at attempt index `a` with `rem`
loop iterations left (`rem = maxRetries - a` on entry); `op a` is the
result of the a-th constructor attempt (`none` = success), `cb a` is
whether `ctx.Err() != nil` already holds at the top of iteration `a`, and
`cd a` is whether the context is cancelled during the backoff wait that
follows a failed attempt `a`.  Returns the result together with the
number of constructor attempts actually made. -/
def retryAux (eff : Nat) (op : Nat → Option String) (cb cd : Nat → Bool) :
    Nat → Nat → RetryResult × Nat
  | _a, 0 => (.failedAfter eff "", 0)
  | a, rem + 1 =>
      if cb a then (.cancelledBefore a, 0)
      else
        match op a with
        | none => (.success, 1)
        | some e =>
            if rem = 0 then (.failedAfter eff e, 1)
            else if cd a then (.cancelledDuring a, 1)
            else
              let r := retryAux eff op cb cd (a + 1) rem
              (r.1, r.2 + 1)

/-- `retryWithBackoff` of exporter.go: `maxRetries <= 0` is normalised to
1 attempt, then the loop runs `for attempt := 0; attempt < maxRetries`. -/
def retryWithBackoff (maxRetries : Int) (op : Nat → Option String)
    (cb cd : Nat → Bool) : RetryResult × Nat :=
  let eff : Nat := if maxRetries ≤ 0 then 1 else maxRetries.toNat
  retryAux eff op cb cd 0 eff

/-- How `Start` (via `initializeProvidersWithCleanup`) creates one
exporter once the retry count has been resolved:
`if retries > 0 { New...ExporterWithRetry(ctx, cfg, retries) } else
{ New...Exporter(ctx, cfg) }`. -/
def startExporterCreation (retries : Int) (op : Nat → Option String)
    (cb cd : Nat → Bool) : RetryResult × Nat :=
  if 0 < retries then retryWithBackoff retries op cb cd
  else
    match op 0 with
    | none => (.success, 1)
    | some e => (.directFailure e, 1)

/-- A constructor that fails on every attempt, with a distinguishable
error per attempt. -/
def failOp (k : Nat) : Option String := some ("dial error " ++ toString k)

def noCancel : Nat → Bool := fun _ => false

/-- Claim C3 (code evaluated at the failing input): with
`Config.ExporterRetries = 0` (`WithNoRetry`), `getExporterRetries` resolves
to 3, so `Start` makes 3 constructor attempts — not the single fail-fast
attempt the claim (and the field's own doc comment) promises.  The
retry-count-3 half of the claim does hold: 3 attempts, and the returned
error wraps the final attempt's cause. -/
theorem c3_retry_counts :
    getExporterRetries 0 = 3 ∧
    getExporterRetries 3 = 3 ∧
    (startExporterCreation (getExporterRetries 0) failOp noCancel noCancel).2 = 3 ∧
    (startExporterCreation (getExporterRetries 0) failOp noCancel noCancel).2 ≠ 1 ∧
    startExporterCreation (getExporterRetries 3) failOp noCancel noCancel =
      (.failedAfter 3 "dial error 2", 3) := by
  decide

/-! ### Backoff durations (claim C6)

`backoff := time.Duration(100*(1<<uint(attempt))) * time.Millisecond` is
computed in 64-bit signed arithmetic: first the shift and the product by
100 on `int`, then the product by `time.Millisecond` (10^6) on
`time.Duration`.  Both products wrap modulo 2^64. -/

/-- Two's-complement wrap of an integer into `[-2^63, 2^63)`. -/
def int64wrap (x : Int) : Int := (x + 2 ^ 63) % 2 ^ 64 - 2 ^ 63

/-- `1 << uint(attempt)` on a 64-bit Go `int`: shifts of 64 or more
produce 0, a shift by 63 wraps to the minimum integer. -/
def goShiftOne (a : Nat) : Int := if a < 64 then int64wrap (2 ^ a) else 0

/-- `time.Duration(100*(1<<uint(attempt))) * time.Millisecond` in
nanoseconds, with both 64-bit multiplications wrapping. -/
def rawBackoffNs (a : Nat) : Int :=
  int64wrap (int64wrap (100 * goShiftOne a) * 1000000)

/-- The duration actually waited on after failed attempt `a` (0-based),
after the `if backoff > 1600*time.Millisecond` cap. -/
def backoffNs (a : Nat) : Int :=
  if 1600000000 < rawBackoffNs a then 1600000000 else rawBackoffNs a

/-- The backoff schedule claim C6 states, written from the claim's words
for comparison with the code's `backoffNs`: 100ms doubled each attempt,
capped at 1.6s (in nanoseconds). -/
def claimedBackoffNs (a : Nat) : Int := (min (100 * 2 ^ a) 1600) * 1000000

/-- Counterexample for C6 as frozen: after failed attempt 37 the computed
duration has overflowed to a negative value (the timer fires immediately),
not the claimed 1.6s cap. -/
theorem c6_counterexample :
    backoffNs 37 ≠ claimedBackoffNs 37 ∧ backoffNs 37 < 0 := by
  decide

theorem retryAux_cancelledDuring (eff : Nat) (op : Nat → Option String)
    (cb cd : Nat → Bool) :
    ∀ (rem a k : Nat), (retryAux eff op cb cd a rem).1 = .cancelledDuring k →
      (retryAux eff op cb cd a rem).2 = k + 1 - a ∧ a ≤ k ∧ k + 1 - a < rem := by
  intro rem
  induction rem with
  | zero =>
      intro a k h
      simp [retryAux] at h
  | succ rem ih =>
      intro a k h
      by_cases hcb : cb a = true
      · simp [retryAux, hcb] at h
      · cases hop : op a with
        | none =>
            simp [retryAux, hcb, hop] at h
        | some e =>
            by_cases hrem : rem = 0
            · simp [retryAux, hcb, hop, hrem] at h
            · have hcb2 : cb a = false := by simpa using hcb
              by_cases hcd : cd a = true
              · have hstep : retryAux eff op cb cd a (rem + 1) =
                    (.cancelledDuring a, 1) := by
                  simp [retryAux, hcb2, hop, hrem, hcd]
                rw [hstep] at h ⊢
                obtain rfl : a = k := by injection h
                refine ⟨by omega, le_rfl, by omega⟩
              · have hcd2 : cd a = false := by simpa using hcd
                have hstep : retryAux eff op cb cd a (rem + 1) =
                    ((retryAux eff op cb cd (a + 1) rem).1,
                      (retryAux eff op cb cd (a + 1) rem).2 + 1) := by
                  simp [retryAux, hcb2, hop, hrem, hcd2]
                rw [hstep] at h ⊢
                obtain ⟨hc, hak, hbound⟩ := ih (a + 1) k h
                refine ⟨by omega, by omega, by omega⟩

/-- Claim C6, amended: for attempts `k ≤ 36` the wait after failed
attempt `k` is `min(100·2^k ms, 1.6 s)` — 100ms doubled each attempt and
capped at 1.6s — while for larger `k` the 64-bit computation overflows
(at `k = 37` the wait is negative, i.e. no wait); and a context
cancellation during the backoff after attempt `k` makes the loop return
the cancellation error having made exactly `k+1` attempts, with further
attempts still outstanding. -/
theorem c6_backoff_amended :
    (∀ a : Nat, a ≤ 36 → backoffNs a = claimedBackoffNs a) ∧
    (∀ (m : Int) (op : Nat → Option String) (cb cd : Nat → Bool) (k : Nat),
      (retryWithBackoff m op cb cd).1 = .cancelledDuring k →
      (retryWithBackoff m op cb cd).2 = k + 1 ∧
        k + 1 < (if m ≤ 0 then 1 else m.toNat)) := by
  constructor
  · decide
  · intro m op cb cd k h
    obtain ⟨hc, _, hbound⟩ := retryAux_cancelledDuring
      (if m ≤ 0 then 1 else m.toNat) op cb cd (if m ≤ 0 then 1 else m.toNat) 0 k h
    exact ⟨by simpa using hc, by simpa using hbound⟩

/-- Witness for C6's amended statement: the attempt-4 wait is exactly the
1.6s cap, and cancelling during the backoff after attempt 1 of a
3-attempt run stops the loop at 2 attempts. -/
theorem c6_backoff_amended_witness :
    backoffNs 4 = claimedBackoffNs 4 ∧
    ((retryWithBackoff 3 failOp noCancel (fun k => decide (k = 1))).2 = 1 + 1 ∧
      1 + 1 < (if (3 : Int) ≤ 0 then 1 else (3 : Int).toNat)) :=
  ⟨c6_backoff_amended.1 4 (by omega),
    c6_backoff_amended.2 3 failOp noCancel (fun k => decide (k = 1)) 1 (by decide)⟩

/-! ## Provider shutdown and flush (provider.go) -/

/-- One of the three export pipelines of the `Providers` triple. -/
inductive Pipeline where
  | trace
  | metric
  | log
deriving DecidableEq

/-- The results the underlying SDK calls would return for one `Providers`
value: what `TracerProvider.Shutdown`, `MeterProvider.Shutdown`,
`LoggerProvider.Shutdown`, `TracerProvider.ForceFlush` and
`MeterProvider.ForceFlush` would each yield (`none` = success).  A
`logFlush` result is part of the world, but provider.go's `ForceFlush`
never consults it.  All three providers are non-nil, as `Start` always
constructs the full triple. -/
structure PipelineWorld where
  traceShutdown : Option String
  metricShutdown : Option String
  logShutdown : Option String
  traceFlush : Option String
  metricFlush : Option String
  logFlush : Option String
deriving DecidableEq

/-- `fmt.Errorf("<label>: %w", err)` collected into the error list `errs`
when the call failed, nothing when it succeeded. -/
def labeledErr (label : String) : Option String → List String
  | none => []
  | some e => [label ++ ": " ++ e]

/-- `errors.Join(errs...)`: `nil` when no errors were collected, otherwise
an error carrying all of them. -/
def joinErrors (errs : List String) : Option (List String) :=
  if errs = [] then none else some errs

namespace Providers

/-- `Providers.Shutdown` of provider.go: shut down the tracer, meter and
logger providers in that order — each attempted unconditionally, with no
early return — collecting labeled errors, and `errors.Join` them.  The
first component records which pipelines were attempted, in order. -/
def Shutdown (w : PipelineWorld) : List Pipeline × Option (List String) :=
  ([Pipeline.trace, Pipeline.metric, Pipeline.log],
    joinErrors (labeledErr "tracer shutdown" w.traceShutdown ++
      labeledErr "meter shutdown" w.metricShutdown ++
      labeledErr "logger shutdown" w.logShutdown))

/-- `Providers.ForceFlush` of provider.go: flush the tracer and meter
providers in that order (the logger provider is not flushed), collecting
labeled errors, and `errors.Join` them. -/
def ForceFlush (w : PipelineWorld) : List Pipeline × Option (List String) :=
  ([Pipeline.trace, Pipeline.metric],
    joinErrors (labeledErr "tracer flush" w.traceFlush ++
      labeledErr "meter flush" w.metricFlush))

end Providers

/-- Counterexample for C7 as frozen: `Providers.ForceFlush` does not
attempt every pipeline — the log pipeline is absent from the pipelines it
touches (here in a world where every call would succeed). -/
theorem c7_counterexample :
    Pipeline.log ∉ (Providers.ForceFlush ⟨none, none, none, none, none, none⟩).1 ∧
      (Providers.ForceFlush ⟨none, none, none, none, none, none⟩).1 =
        [Pipeline.trace, Pipeline.metric] := by
  decide

/-- Claim C7, amended: `Providers.Shutdown` attempts all three pipelines
(and `Providers.ForceFlush` the trace and metric pipelines — it performs
no log flush) even when an earlier pipeline fails, returning all
per-pipeline errors combined: the combined error is nil exactly when
every attempted call succeeded, and if the trace shutdown fails while
metric and log succeed, the combined error mentions only the trace
failure. -/
theorem c7_error_isolation (w : PipelineWorld) (e : String) :
    (Providers.Shutdown w).1 = [Pipeline.trace, Pipeline.metric, Pipeline.log] ∧
    (Providers.ForceFlush w).1 = [Pipeline.trace, Pipeline.metric] ∧
    ((Providers.Shutdown w).2 = none ↔
      w.traceShutdown = none ∧ w.metricShutdown = none ∧ w.logShutdown = none) ∧
    ((Providers.ForceFlush w).2 = none ↔
      w.traceFlush = none ∧ w.metricFlush = none) ∧
    (w.traceShutdown = some e → w.metricShutdown = none → w.logShutdown = none →
      (Providers.Shutdown w).2 = some ["tracer shutdown: " ++ e]) := by
  refine ⟨rfl, rfl, ?_, ?_, ?_⟩
  · cases ht : w.traceShutdown <;> cases hm : w.metricShutdown <;>
      cases hl : w.logShutdown <;>
      simp [Providers.Shutdown, labeledErr, joinErrors, ht, hm, hl]
  · cases ht : w.traceFlush <;> cases hm : w.metricFlush <;>
      simp [Providers.ForceFlush, labeledErr, joinErrors, ht, hm]
  · intro ht hm hl
    simp [Providers.Shutdown, labeledErr, joinErrors, ht, hm, hl]

/-- Witness for C7's amended statement: trace shutdown fails with "conn
reset", metric and log succeed. -/
theorem c7_error_isolation_witness :
    (Providers.Shutdown ⟨some "conn reset", none, none, none, none, none⟩).2 =
      some ["tracer shutdown: " ++ "conn reset"] :=
  (c7_error_isolation ⟨some "conn reset", none, none, none, none, none⟩
    "conn reset").2.2.2.2 rfl rfl rfl

/-! ## Configuration validation (config.go) -/

/-- The error message `validate` produces for an unrecognized
`OTEL_EXPORTER_OTLP_PROTOCOL` token (the offending value is embedded in
the middle). -/
def protocolErrMsg (p : String) : String :=
  "gintelemetry: invalid OTEL_EXPORTER_OTLP_PROTOCOL value: " ++ p ++
    " (must be \x27grpc\x27 or \x27http\x27)"

/-- The protocol-resolution fragment of `Config.validate`: when
`c.Protocol` is empty and the environment variable is non-empty, switch on
the exact token — `"grpc"` maps to gRPC, `"http/protobuf"` and `"http"`
map to HTTP, anything else is a configuration error carrying the value;
a non-empty `c.Protocol` is kept, and an empty environment leaves the
protocol empty (defaulted to gRPC later by `buildExporterConfig`).
`Protocol` is a Go string type, embedded as `String`. -/
def resolveProtocolEnv (cfgProtocol envProto : String) : Except String String :=
  if cfgProtocol = "" then
    if envProto ≠ "" then
      if envProto = "grpc" then .ok "grpc"
      else if envProto = "http/protobuf" ∨ envProto = "http" then .ok "http"
      else .error (protocolErrMsg envProto)
    else .ok ""
  else .ok cfgProtocol

/-- Counterexample for C4 as frozen: the switch is case-sensitive, so the
uppercase token "GRPC" is rejected as unrecognized instead of being mapped
to the gRPC transport. -/
theorem c4_counterexample :
    resolveProtocolEnv "" "GRPC" = Except.error (protocolErrMsg "GRPC") ∧
      resolveProtocolEnv "" "GRPC" ≠ Except.ok "grpc" := by
  refine ⟨rfl, ?_⟩
  intro h
  rw [show resolveProtocolEnv "" "GRPC" = Except.error (protocolErrMsg "GRPC")
    from rfl] at h
  exact Except.noConfusion h

/-- Claim C4, amended: with `Config.Protocol` unset, the environment value
is matched case-sensitively — exactly `"grpc"` maps to gRPC and exactly
`"http/protobuf"` or `"http"` map to HTTP; every other non-empty token
(including other casings) makes validation fail with a configuration
error that includes the offending value, rather than silently defaulting;
a set `Config.Protocol` is used as-is. -/
theorem c4_protocol_env_amended :
    resolveProtocolEnv "" "grpc" = Except.ok "grpc" ∧
    resolveProtocolEnv "" "http" = Except.ok "http" ∧
    resolveProtocolEnv "" "http/protobuf" = Except.ok "http" ∧
    (∀ p : String, p ≠ "" → p ≠ "grpc" → p ≠ "http/protobuf" → p ≠ "http" →
      resolveProtocolEnv "" p = Except.error (protocolErrMsg p)) ∧
    (∀ p : String, ∃ pre post, protocolErrMsg p = pre ++ p ++ post) ∧
    (∀ cfgP envP : String, cfgP ≠ "" → resolveProtocolEnv cfgP envP = Except.ok cfgP) := by
  refine ⟨rfl, rfl, rfl, ?_, ?_, ?_⟩
  · intro p h1 h2 h3 h4
    simp [resolveProtocolEnv, h1, h2, h3, h4]
  · intro p
    exact ⟨"gintelemetry: invalid OTEL_EXPORTER_OTLP_PROTOCOL value: ",
      " (must be \x27grpc\x27 or \x27http\x27)", rfl⟩
  · intro cfgP envP h
    simp [resolveProtocolEnv, h]

/-- Witness for C4's amended statement: the mixed-case token "Grpc" is an
error carrying the token, and an explicitly set protocol wins. -/
theorem c4_protocol_env_amended_witness :
    resolveProtocolEnv "" "Grpc" = Except.error (protocolErrMsg "Grpc") ∧
      resolveProtocolEnv "http" "grpc" = Except.ok "http" :=
  ⟨c4_protocol_env_amended.2.2.2.1 "Grpc" (by decide) (by decide) (by decide) (by decide),
    c4_protocol_env_amended.2.2.2.2.2 "http" "grpc" (by decide)⟩

/-! ### OTEL_RESOURCE_ATTRIBUTES parsing (claim C5) -/

/-- The whitespace `trimString` strips: space and tab, as in the source's
explicit `s[start] == ' ' || s[start] == '\t'` checks. -/
def isSpaceOrTab (c : Char) : Bool := c = ' ' || c = '\t'

/-- `trimString` of config.go on character lists: advance `start` past
leading spaces/tabs, retreat `end` past trailing ones. -/
def trimChars (l : List Char) : List Char :=
  List.rdropWhile isSpaceOrTab (List.dropWhile isSpaceOrTab l)

/-- `trimString` of config.go. -/
def trimString (s : String) : String := ⟨trimChars s.data⟩

/-- `splitResourceAttributes` of config.go, on the character list with the
accumulated `current` token and the `escaped` flag: a backslash with a
following character appends that character and sets `escaped`; an
unescaped comma flushes a non-empty `current`; anything else (including a
comma right after an escape pair, and a trailing backslash) is appended
and clears `escaped`.  At the end a non-empty `current` is flushed. -/
def splitGoChars : List Char → List Char → Bool → List (List Char)
  | [], current, _ => if current = [] then [] else [current]
  | '\\' :: d :: rest, current, _ => splitGoChars rest (current ++ [d]) true
  | c :: rest, current, escaped =>
      if c = ',' ∧ escaped = false then
        if current = [] then splitGoChars rest [] false
        else current :: splitGoChars rest [] false
      else splitGoChars rest (current ++ [c]) false

/-- `splitResourceAttributes` of config.go. -/
def splitResourceAttributes (s : String) : List String :=
  (splitGoChars s.data [] false).map fun l => ⟨l⟩

/-- `parseKeyValue` of config.go on characters, with the scanned prefix
accumulated: a backslash with a following character skips that character
(both stay in the scanned prefix); the first unescaped `=` splits the
pair, both sides are trimmed, and an empty key yields no pair; a string
without an unescaped `=` (including one ending in a bare backslash, which
the loop walks past) yields no pair. -/
def parseKeyValueChars : List Char → List Char → Option (String × String)
  | [], _pre => none
  | c :: rest, pre =>
      if c = '\\' then
        match rest with
        | d :: rest2 => parseKeyValueChars rest2 (pre ++ [c, d])
        | [] => none
      else if c = '=' then
        if trimString ⟨pre⟩ = "" then none
        else some (trimString ⟨pre⟩, trimString ⟨rest⟩)
      else parseKeyValueChars rest (pre ++ [c])

/-- `parseKeyValue` of config.go. -/
def parseKeyValue (s : String) : Option (String × String) :=
  parseKeyValueChars s.data []

/-- A Go `map[string]string`, embedded as an association list in which
the first binding for a key is its value; insertion of an absent key
appends. -/
def lookupAttr (k : String) : List (String × String) → Option String
  | [] => none
  | (k2, v) :: t => if k = k2 then some v else lookupAttr k t

/-- One iteration of the merge loop in `Config.validate`: parse the pair
and store it only when the key is not already present (config attributes
take precedence over env vars, and earlier env pairs over later ones). -/
def mergeStep (m : List (String × String)) (pair : String) : List (String × String) :=
  match parseKeyValue pair with
  | some (k, v) =>
      match lookupAttr k m with
      | some _ => m
      | none => m ++ [(k, v)]
  | none => m

/-- The OTEL_RESOURCE_ATTRIBUTES block of `Config.validate`: with a
non-empty environment string, split it and fold the merge step over the
pairs starting from the explicit `GlobalAttributes`; an empty environment
string leaves the attributes untouched. -/
def loadGlobalAttributes (explicit : List (String × String)) (envRA : String) :
    List (String × String) :=
  if envRA = "" then explicit
  else (splitResourceAttributes envRA).foldl mergeStep explicit

theorem lookupAttr_append_left (k v : String) (m l2 : List (String × String))
    (h : lookupAttr k m = some v) : lookupAttr k (m ++ l2) = some v := by
  induction m with
  | nil => simp [lookupAttr] at h
  | cons p t ih =>
      obtain ⟨k2, v2⟩ := p
      by_cases hk : k = k2
      · subst hk
        simp [lookupAttr] at h ⊢
        exact h
      · simp only [List.cons_append, lookupAttr, if_neg hk] at h ⊢
        exact ih h

theorem mergeStep_preserves (k v : String) (m : List (String × String)) (pair : String)
    (h : lookupAttr k m = some v) : lookupAttr k (mergeStep m pair) = some v := by
  unfold mergeStep
  cases parseKeyValue pair with
  | none => exact h
  | some p =>
      obtain ⟨k2, v2⟩ := p
      dsimp only
      cases hl : lookupAttr k2 m with
      | some w => exact h
      | none => exact lookupAttr_append_left k v m [(k2, v2)] h

theorem foldl_mergeStep_preserves (k v : String) (pairs : List String)
    (m : List (String × String)) (h : lookupAttr k m = some v) :
    lookupAttr k (pairs.foldl mergeStep m) = some v := by
  induction pairs generalizing m with
  | nil => simpa using h
  | cons p t ih =>
      simp only [List.foldl_cons]
      exact ih _ (mergeStep_preserves k v m p h)

theorem trimChars_idem (l : List Char) : trimChars (trimChars l) = trimChars l := by
  unfold trimChars
  have h1 : List.dropWhile isSpaceOrTab
      (List.rdropWhile isSpaceOrTab (List.dropWhile isSpaceOrTab l)) =
        List.rdropWhile isSpaceOrTab (List.dropWhile isSpaceOrTab l) := by
    obtain ⟨t, ht⟩ := List.rdropWhile_prefix isSpaceOrTab (List.dropWhile isSpaceOrTab l)
    cases hB : List.rdropWhile isSpaceOrTab (List.dropWhile isSpaceOrTab l) with
    | nil => simp
    | cons c bs =>
        rw [hB] at ht
        have hc : isSpaceOrTab c = false := by
          have hhead : (List.dropWhile isSpaceOrTab l).head? = some c := by
            rw [← ht]
            rfl
          rw [← List.find?_not_eq_head?_dropWhile] at hhead
          simpa using List.find?_some hhead
        simp [List.dropWhile_cons, hc]
  rw [h1, List.rdropWhile_idempotent]

theorem trimString_idem (s : String) : trimString (trimString s) = trimString s := by
  unfold trimString
  exact congrArg String.mk (trimChars_idem s.data)

theorem parseKeyValueChars_trimmed (l pre : List Char) (k v : String)
    (h : parseKeyValueChars l pre = some (k, v)) :
    k ≠ "" ∧ trimString k = k ∧ trimString v = v := by
  induction l, pre using parseKeyValueChars.induct with
  | case1 pre =>
      simp [parseKeyValueChars] at h
  | case2 pre d rest2 ih =>
      rw [show parseKeyValueChars ('\\' :: d :: rest2) pre =
        parseKeyValueChars rest2 (pre ++ ['\\', d]) from by
          simp [parseKeyValueChars]] at h
      exact ih h
  | case3 pre =>
      simp [parseKeyValueChars] at h
  | case4 rest pre hk hne =>
      rw [show parseKeyValueChars ('=' :: rest) pre = none from by
        rw [parseKeyValueChars.eq_def]
        simp [hk]] at h
      exact absurd h (by simp)
  | case5 rest pre hk hne =>
      rw [show parseKeyValueChars ('=' :: rest) pre =
        some (trimString ⟨pre⟩, trimString ⟨rest⟩) from by
          rw [parseKeyValueChars.eq_def]
          simp [hk]] at h
      obtain ⟨rfl, rfl⟩ : trimString ⟨pre⟩ = k ∧ trimString ⟨rest⟩ = v := by
        constructor
        · exact congrArg Prod.fst (Option.some.inj h)
        · exact congrArg Prod.snd (Option.some.inj h)
      exact ⟨hk, trimString_idem _, trimString_idem _⟩
  | case6 c rest pre hc1 hc2 ih =>
      rw [show parseKeyValueChars (c :: rest) pre =
        parseKeyValueChars rest (pre ++ [c]) from by
          rw [parseKeyValueChars.eq_def]
          simp [hc1, hc2]] at h
      exact ih h

/-- Claim C5: the OTEL_RESOURCE_ATTRIBUTES merge never overwrites a key
already present in the explicit attributes (for any explicit map and any
environment string); every parsed pair has a non-empty, whitespace-trimmed
key and a trimmed value (empty-key entries are dropped); backslash escapes
keep a literal comma or equals sign inside a value; and the claim's
concrete scenario: explicit team=frontend with environment
"team=backend,region=us-east-1" yields team=frontend and
region=us-east-1. -/
theorem c5_resource_attributes :
    (∀ (explicit : List (String × String)) (envRA k v : String),
      lookupAttr k explicit = some v →
      lookupAttr k (loadGlobalAttributes explicit envRA) = some v) ∧
    (∀ (p k v : String), parseKeyValue p = some (k, v) →
      k ≠ "" ∧ trimString k = k ∧ trimString v = v) ∧
    loadGlobalAttributes [] "k=a\\,b" = [("k", "a,b")] ∧
    loadGlobalAttributes [] "k = a\\=b " = [("k", "a=b")] ∧
    loadGlobalAttributes [] " =v,a=b" = [("a", "b")] ∧
    loadGlobalAttributes [("team", "frontend")] "team=backend,region=us-east-1" =
      [("team", "frontend"), ("region", "us-east-1")] := by
  refine ⟨?_, ?_, by decide, by decide, by decide, by decide⟩
  · intro explicit envRA k v h
    unfold loadGlobalAttributes
    by_cases he : envRA = ""
    · simpa [he] using h
    · rw [if_neg he]
      exact foldl_mergeStep_preserves k v _ explicit h
  · intro p k v h
    exact parseKeyValueChars_trimmed p.data [] k v h

/-- Witness for C5: explicit team=frontend survives the merge of the
scenario's environment string, and the parsed pair of "region=us-east-1"
is non-empty and trimmed. -/
theorem c5_resource_attributes_witness :
    lookupAttr "team"
      (loadGlobalAttributes [("team", "frontend")] "team=backend,region=us-east-1") =
        some "frontend" ∧
    ("region" ≠ "" ∧ trimString "region" = "region" ∧
      trimString "us-east-1" = "us-east-1") :=
  ⟨c5_resource_attributes.1 [("team", "frontend")] "team=backend,region=us-east-1"
      "team" "frontend" (by decide),
    c5_resource_attributes.2.1 "region=us-east-1" "region" "us-east-1" (by decide)⟩

/-! ## Caller-config isolation (claim C10)

`Start` runs `cfg = cfg.copy()` before `cfg.validate()`.  A Go `Config`
value holds two references into shared mutable state: the
`GlobalAttributes` map and the `TLS` pointer.  Those objects live in an
explicit heap here, and a `Config` holds optional indices into it (nil
map / nil pointer = `none`); all other fields are plain values, already
copied by Go's pass-by-value.  `copy` deep-copies both objects; `validate`
mutates the map it reaches through the reference (service-name fallback
and attribute merge).  The claim is that the caller's objects are
untouched. -/

/-- `TLSConfig` of config.go. -/
structure TLSConfig where
  certFile : String
  keyFile : String
  caFile : String
  insecureSkipVerify : Bool
deriving DecidableEq

/-- The shared mutable objects `Config` values can reference. -/
structure Heap where
  attrMaps : List (List (String × String))
  tlsObjs : List TLSConfig
deriving DecidableEq

/-- `Config` of config.go: scalar fields plus the two references. -/
structure Config where
  serviceName : String
  endpoint : String
  protocol : String
  insecure : Bool
  logLevel : Int
  shutdownTimeout : Int
  setGlobalProvider : Bool
  exporterRetries : Int
  attrsRef : Option Nat
  tlsRef : Option Nat
deriving DecidableEq

/-- The environment variables `validate` reads. -/
structure EnvModel where
  serviceName : String
  endpoint : String
  protocol : String
  resourceAttrs : String
deriving DecidableEq

def heapGetMap (h : Heap) (r : Nat) : List (String × String) := h.attrMaps.getD r []

def heapAllocMap (h : Heap) (m : List (String × String)) : Heap × Nat :=
  ({ h with attrMaps := h.attrMaps ++ [m] }, h.attrMaps.length)

def heapSetMap (h : Heap) (r : Nat) (m : List (String × String)) : Heap :=
  { h with attrMaps := h.attrMaps.set r m }

def heapGetTLS (h : Heap) (r : Nat) : TLSConfig := h.tlsObjs.getD r ⟨"", "", "", false⟩

def heapAllocTLS (h : Heap) (t : TLSConfig) : Heap × Nat :=
  ({ h with tlsObjs := h.tlsObjs ++ [t] }, h.tlsObjs.length)

/-- `validatedConfig` of config.go: the validated `Config` snapshot plus
the resolved endpoint. -/
structure validatedConfig where
  config : Config
  endpoint : String
deriving DecidableEq

namespace Config

/-- `Config.copy` of config.go: scalars are copied field by field; a
non-nil `TLS` is re-allocated with the same contents; a non-nil
`GlobalAttributes` map is re-allocated with the same entries. -/
def copy (h : Heap) (c : Config) : Heap × Config :=
  let tlsres : Heap × Option Nat :=
    match c.tlsRef with
    | none => (h, none)
    | some r =>
        let a := heapAllocTLS h (heapGetTLS h r)
        (a.1, some a.2)
  let attrres : Heap × Option Nat :=
    match c.attrsRef with
    | none => (tlsres.1, none)
    | some r =>
        let a := heapAllocMap tlsres.1 (heapGetMap tlsres.1 r)
        (a.1, some a.2)
  (attrres.1, { c with tlsRef := tlsres.2, attrsRef := attrres.2 })

/-- The OTEL_RESOURCE_ATTRIBUTES block of `validate`, as a standalone
step: with a non-empty environment string, reach the attributes map
through the reference (allocating a fresh empty map when the reference is
nil) and fold the merge over the parsed pairs, writing the result through
the reference. -/
def mergeEnvAttrs (h : Heap) (c : Config) (envRA : String) : Heap × Config :=
  if envRA = "" then (h, c)
  else
    let hr : Heap × Nat :=
      match c.attrsRef with
      | some r => (h, r)
      | none => heapAllocMap h []
    let c3 := { c with attrsRef := some hr.2 }
    let merged := (splitResourceAttributes envRA).foldl
      mergeStep (heapGetMap hr.1 hr.2)
    (heapSetMap hr.1 hr.2 merged, c3)

/-- `Config.validate` of config.go: service-name and endpoint env
fallbacks (failing with a named-field error when still empty), protocol
resolution from OTEL_EXPORTER_OTLP_PROTOCOL, then the
OTEL_RESOURCE_ATTRIBUTES merge, which writes through the attributes
reference.  Returns the heap, the mutated receiver, and the
`*validatedConfig` or error. -/
def validate (h : Heap) (c : Config) (env : EnvModel) :
    Heap × Config × Except String validatedConfig :=
  let c1 := if c.serviceName = "" then { c with serviceName := env.serviceName } else c
  if c1.serviceName = "" then
    (h, c1, .error "gintelemetry: ServiceName must be provided (via Config.ServiceName or OTEL_SERVICE_NAME env var)")
  else
    let endpoint := if c1.endpoint = "" then env.endpoint else c1.endpoint
    if endpoint = "" then
      (h, c1, .error "gintelemetry: Endpoint must be provided (via Config.Endpoint or OTEL_EXPORTER_OTLP_ENDPOINT env var)")
    else
      match resolveProtocolEnv c1.protocol env.protocol with
      | .error e => (h, c1, .error e)
      | .ok proto =>
          let hc3 := mergeEnvAttrs h { c1 with protocol := proto } env.resourceAttrs
          (hc3.1, hc3.2, .ok ⟨hc3.2, endpoint⟩)

end Config

/-- The configuration phase of `Start`: `cfg = cfg.copy()` followed by
`cfg.validate()`, returning the heap and the validation outcome (the
mutated local copy itself never escapes `Start`). -/
def startConfigPhase (h : Heap) (c : Config) (env : EnvModel) :
    Heap × Except String validatedConfig :=
  let hc := Config.copy h c
  let r := Config.validate hc.1 hc.2 env
  (r.1, r.2.2)

/-- The entries of the attributes map a config references (empty for a
nil map). -/
def attrContents (h : Heap) (c : Config) : List (String × String) :=
  match c.attrsRef with
  | some r => heapGetMap h r
  | none => []

/-- The TLS struct a config references, if any. -/
def tlsContents (h : Heap) (c : Config) : Option TLSConfig :=
  c.tlsRef.map (heapGetTLS h)

/-- References of a caller's config point into the heap. -/
def HeapWf (h : Heap) (c : Config) : Prop :=
  (∀ r, c.attrsRef = some r → r < h.attrMaps.length) ∧
    (∀ r, c.tlsRef = some r → r < h.tlsObjs.length)

/-- The objects `copy` appends for a non-nil attributes reference. -/
def copiedMaps (h : Heap) : Option Nat → List (List (String × String))
  | some r => [heapGetMap h r]
  | none => []

/-- The objects `copy` appends for a non-nil TLS reference. -/
def copiedTLS (h : Heap) : Option Nat → List TLSConfig
  | some r => [heapGetTLS h r]
  | none => []

/-- The reference the copied config holds: the fresh allocation for a
non-nil source reference, nil for nil. -/
def bumpRef (n : Nat) : Option Nat → Option Nat
  | some _ => some n
  | none => none

theorem copy_spec (h : Heap) (c : Config) :
    Config.copy h c =
      (⟨h.attrMaps ++ copiedMaps h c.attrsRef, h.tlsObjs ++ copiedTLS h c.tlsRef⟩,
        { c with
            attrsRef := bumpRef h.attrMaps.length c.attrsRef,
            tlsRef := bumpRef h.tlsObjs.length c.tlsRef }) := by
  obtain ⟨sn, ep, pr, ins, ll, st, sg, er, aref, tref⟩ := c
  cases aref <;> cases tref <;>
    simp [Config.copy, copiedMaps, copiedTLS, bumpRef, heapAllocMap, heapAllocTLS,
      heapGetMap, heapGetTLS]

theorem mergeEnvAttrs_spec (h : Heap) (c : Config) (envRA : String) :
    Config.mergeEnvAttrs h c envRA =
      (if envRA = "" then (h, c)
        else
          match c.attrsRef with
          | some r =>
              (heapSetMap h r
                ((splitResourceAttributes envRA).foldl mergeStep (heapGetMap h r)),
                { c with attrsRef := some r })
          | none =>
              (heapSetMap (heapAllocMap h []).1 h.attrMaps.length
                ((splitResourceAttributes envRA).foldl mergeStep
                  (heapGetMap (heapAllocMap h []).1 h.attrMaps.length)),
                { c with attrsRef := some h.attrMaps.length })) := by
  obtain ⟨sn, ep, pr, ins, ll, st, sg, er, aref, tref⟩ := c
  by_cases hra : envRA = ""
  · simp [Config.mergeEnvAttrs, hra]
  · cases aref <;> simp [Config.mergeEnvAttrs, hra, heapAllocMap]

theorem validate_cases (h : Heap) (c : Config) (env : EnvModel) :
    ((Config.validate h c env).1 = h ∧
      ∀ v, (Config.validate h c env).2.2 ≠ Except.ok v) ∨
    (∃ proto,
      resolveProtocolEnv c.protocol env.protocol = Except.ok proto ∧
      Config.validate h c env =
        ((Config.mergeEnvAttrs h
            { c with
                serviceName := if c.serviceName = "" then env.serviceName else c.serviceName,
                protocol := proto } env.resourceAttrs).1,
          (Config.mergeEnvAttrs h
            { c with
                serviceName := if c.serviceName = "" then env.serviceName else c.serviceName,
                protocol := proto } env.resourceAttrs).2,
          Except.ok
            ⟨(Config.mergeEnvAttrs h
                { c with
                    serviceName := if c.serviceName = "" then env.serviceName else c.serviceName,
                    protocol := proto } env.resourceAttrs).2,
              if c.endpoint = "" then env.endpoint else c.endpoint⟩)) := by
  obtain ⟨sn, ep, pr, ins, ll, st, sg, er, aref, tref⟩ := c
  unfold Config.validate
  by_cases hsn : sn = ""
  · by_cases hsn2 : env.serviceName = ""
    · left
      constructor
      · simp [hsn, hsn2]
      · intro v hv
        simp [hsn, hsn2] at hv
    · by_cases hep : ep = ""
      · by_cases hep2 : env.endpoint = ""
        · left
          constructor
          · simp [hsn, hsn2, hep, hep2]
          · intro v hv
            simp [hsn, hsn2, hep, hep2] at hv
        · rcases hp : resolveProtocolEnv pr env.protocol with e | proto
          · left
            constructor
            · simp [hsn, hsn2, hep, hep2, hp]
            · intro v hv
              simp [hsn, hsn2, hep, hep2, hp] at hv
          · right
            refine ⟨proto, rfl, ?_⟩
            simp [hsn, hsn2, hep, hep2, hp]
      · rcases hp : resolveProtocolEnv pr env.protocol with e | proto
        · left
          constructor
          · simp [hsn, hsn2, hep, hp]
          · intro v hv
            simp [hsn, hsn2, hep, hp] at hv
        · right
          refine ⟨proto, rfl, ?_⟩
          simp [hsn, hsn2, hep, hp]
  · by_cases hep : ep = ""
    · by_cases hep2 : env.endpoint = ""
      · left
        constructor
        · simp [hsn, hep, hep2]
        · intro v hv
          simp [hsn, hep, hep2] at hv
      · rcases hp : resolveProtocolEnv pr env.protocol with e | proto
        · left
          constructor
          · simp [hsn, hep, hep2, hp]
          · intro v hv
            simp [hsn, hep, hep2, hp] at hv
        · right
          refine ⟨proto, rfl, ?_⟩
          simp [hsn, hep, hep2, hp]
    · rcases hp : resolveProtocolEnv pr env.protocol with e | proto
      · left
        constructor
        · simp [hsn, hep, hp]
        · intro v hv
          simp [hsn, hep, hp] at hv
      · right
        refine ⟨proto, rfl, ?_⟩
        simp [hsn, hep, hp]

theorem getD_append_length {α : Type} (l : List α) (x : α) (d : α) :
    (l ++ [x]).getD l.length d = x := by
  simp [List.getD_eq_getElem?_getD, List.getElem?_append]

theorem getD_set_self' {α : Type} (l : List α) (i : Nat) (a d : α) (h : i < l.length) :
    (l.set i a).getD i d = a := by
  simp [List.getD_eq_getElem?_getD, List.getElem?_set, h]

theorem startConfigPhase_eq (h : Heap) (c : Config) (env : EnvModel) :
    startConfigPhase h c env =
      ((Config.validate
          ⟨h.attrMaps ++ copiedMaps h c.attrsRef, h.tlsObjs ++ copiedTLS h c.tlsRef⟩
          { c with
              attrsRef := bumpRef h.attrMaps.length c.attrsRef,
              tlsRef := bumpRef h.tlsObjs.length c.tlsRef } env).1,
        (Config.validate
          ⟨h.attrMaps ++ copiedMaps h c.attrsRef, h.tlsObjs ++ copiedTLS h c.tlsRef⟩
          { c with
              attrsRef := bumpRef h.attrMaps.length c.attrsRef,
              tlsRef := bumpRef h.tlsObjs.length c.tlsRef } env).2.2) := by
  unfold startConfigPhase
  rw [copy_spec]

theorem getElem?_append_left' {α : Type} (l l2 : List α) (r : Nat) (h : r < l.length) :
    (l ++ l2)[r]? = l[r]? := by
  rw [List.getElem?_append, if_pos h]

theorem getElem?_set_ne' {α : Type} (l : List α) (i : Nat) (m : α) (r : Nat)
    (h : ¬ i = r) : (l.set i m)[r]? = l[r]? := by
  rw [List.getElem?_set, if_neg h]

/-- What claim C10 asserts of the configuration phase at `(h, c, env)`:
all pre-existing heap objects unchanged, and the validated config (when
validation succeeds) aliases neither caller object while carrying the
fallback service name/endpoint, the merged attributes, and the caller's
TLS contents. -/
def StartConfigIsolation (h : Heap) (c : Config) (env : EnvModel) : Prop :=
  (∀ r, r < h.attrMaps.length →
    (startConfigPhase h c env).1.attrMaps[r]? = h.attrMaps[r]?) ∧
  (∀ r, r < h.tlsObjs.length →
    (startConfigPhase h c env).1.tlsObjs[r]? = h.tlsObjs[r]?) ∧
  (∀ v, (startConfigPhase h c env).2 = Except.ok v →
    v.config.serviceName =
      (if c.serviceName = "" then env.serviceName else c.serviceName) ∧
    v.endpoint = (if c.endpoint = "" then env.endpoint else c.endpoint) ∧
    (∀ rc, c.attrsRef = some rc → v.config.attrsRef ≠ some rc) ∧
    (∀ rt, c.tlsRef = some rt → v.config.tlsRef ≠ some rt) ∧
    attrContents (startConfigPhase h c env).1 v.config =
      loadGlobalAttributes (attrContents h c) env.resourceAttrs ∧
    tlsContents (startConfigPhase h c env).1 v.config = tlsContents h c)

/-- Claim C10: the configuration phase of `Start` (deep copy, then
validation with env fallbacks and attribute merge) leaves every
pre-existing heap object — in particular the caller's GlobalAttributes
map and TLS struct — unchanged; when validation succeeds, the validated
config aliases neither caller object, its service name and endpoint carry
the environment fallbacks, its attribute map holds the merge of the
caller's attributes with OTEL_RESOURCE_ATTRIBUTES, and its TLS contents
equal the caller's. -/
theorem c10_caller_config_unchanged (h : Heap) (c : Config) (env : EnvModel)
    (hwf : HeapWf h c) : StartConfigIsolation h c env := by
  unfold StartConfigIsolation
  obtain ⟨hwa, hwt⟩ := hwf
  rw [startConfigPhase_eq]
  rcases validate_cases
      ⟨h.attrMaps ++ copiedMaps h c.attrsRef, h.tlsObjs ++ copiedTLS h c.tlsRef⟩
      { c with
          attrsRef := bumpRef h.attrMaps.length c.attrsRef,
          tlsRef := bumpRef h.tlsObjs.length c.tlsRef } env with
    ⟨hheap, hnotok⟩ | ⟨proto, hp, heq⟩
  · refine ⟨?_, ?_, ?_⟩
    · intro r hr
      rw [hheap]
      exact getElem?_append_left' h.attrMaps (copiedMaps h c.attrsRef) r hr
    · intro r hr
      rw [hheap]
      exact getElem?_append_left' h.tlsObjs (copiedTLS h c.tlsRef) r hr
    · intro v hv
      exact absurd hv (hnotok v)
  · rw [heq]
    dsimp only
    rw [mergeEnvAttrs_spec]
    dsimp only
    by_cases hra : env.resourceAttrs = ""
    · rw [if_pos hra]
      dsimp only
      refine ⟨?_, ?_, ?_⟩
      · intro r hr
        exact getElem?_append_left' h.attrMaps (copiedMaps h c.attrsRef) r hr
      · intro r hr
        exact getElem?_append_left' h.tlsObjs (copiedTLS h c.tlsRef) r hr
      · intro v hv
        obtain rfl : _ = v := Except.ok.inj hv
        refine ⟨rfl, rfl, ?_, ?_, ?_, ?_⟩
        · intro rc hrc
          have hlt := hwa rc hrc
          simp only [hrc, bumpRef, ne_eq, Option.some.injEq]
          omega
        · intro rt hrt
          have hlt := hwt rt hrt
          simp only [hrt, bumpRef, ne_eq, Option.some.injEq]
          omega
        · cases haref : c.attrsRef with
          | none =>
              simp [attrContents, bumpRef, loadGlobalAttributes, hra, haref]
          | some rc =>
              simp only [attrContents, bumpRef, loadGlobalAttributes, hra, haref,
                if_true, reduceIte, copiedMaps]
              exact getD_append_length h.attrMaps (heapGetMap h rc) []
        · cases htref : c.tlsRef with
          | none => simp [tlsContents, bumpRef, htref]
          | some rt =>
              simp only [tlsContents, bumpRef, htref, Option.map_some', copiedTLS,
                Option.some.injEq]
              exact getD_append_length h.tlsObjs (heapGetTLS h rt) _
    · rw [if_neg hra]
      cases haref : c.attrsRef with
      | some rc =>
          have hlt := hwa rc haref
          simp only [bumpRef, copiedMaps]
          refine ⟨?_, ?_, ?_⟩
          · intro r hr
            simp only [heapSetMap]
            rw [getElem?_set_ne' _ _ _ _ (by omega)]
            exact getElem?_append_left' h.attrMaps [heapGetMap h rc] r hr
          · intro r hr
            simp only [heapSetMap]
            exact getElem?_append_left' h.tlsObjs (copiedTLS h c.tlsRef) r hr
          · intro v hv
            obtain rfl : _ = v := Except.ok.inj hv
            refine ⟨rfl, rfl, ?_, ?_, ?_, ?_⟩
            · intro rc2 hrc2
              obtain rfl : rc = rc2 := by injection hrc2
              simp only [ne_eq, Option.some.injEq]
              omega
            · intro rt hrt
              have hlt2 := hwt rt hrt
              simp only [hrt, bumpRef, ne_eq, Option.some.injEq]
              omega
            · simp only [attrContents, heapSetMap, heapGetMap, loadGlobalAttributes,
                hra, reduceIte, haref]
              rw [getD_set_self' _ _ _ _ (by simp)]
              congr 1
              exact getD_append_length h.attrMaps (h.attrMaps.getD rc []) []
            · cases htref : c.tlsRef with
              | none => simp [tlsContents, bumpRef, heapSetMap, htref]
              | some rt =>
                  simp only [tlsContents, bumpRef, htref, Option.map_some', heapSetMap,
                    heapGetTLS, copiedTLS, Option.some.injEq]
                  exact getD_append_length h.tlsObjs (heapGetTLS h rt) _
      | none =>
          simp only [bumpRef, copiedMaps, List.append_nil]
          refine ⟨?_, ?_, ?_⟩
          · intro r hr
            simp only [heapSetMap, heapAllocMap]
            rw [getElem?_set_ne' _ _ _ _ (by omega)]
            exact getElem?_append_left' h.attrMaps [[]] r hr
          · intro r hr
            simp only [heapSetMap, heapAllocMap]
            exact getElem?_append_left' h.tlsObjs (copiedTLS h c.tlsRef) r hr
          · intro v hv
            obtain rfl : _ = v := Except.ok.inj hv
            refine ⟨rfl, rfl, ?_, ?_, ?_, ?_⟩
            · intro rc hrc
              exact Option.noConfusion hrc
            · intro rt hrt
              have hlt2 := hwt rt hrt
              simp only [hrt, bumpRef, ne_eq, Option.some.injEq]
              omega
            · simp only [attrContents, heapSetMap, heapAllocMap, heapGetMap,
                loadGlobalAttributes, hra, reduceIte, haref]
              rw [getD_set_self' _ _ _ _ (by simp)]
              congr 1
              exact getD_append_length h.attrMaps [] []
            · cases htref : c.tlsRef with
              | none => simp [tlsContents, bumpRef, heapSetMap, heapAllocMap, htref]
              | some rt =>
                  simp only [tlsContents, bumpRef, htref, Option.map_some', heapSetMap,
                    heapAllocMap, heapGetTLS, copiedTLS, Option.some.injEq]
                  exact getD_append_length h.tlsObjs (heapGetTLS h rt) _

/-- Witness for C10: a caller config referencing one attribute map
(team=x) and one TLS struct, validated with env fallbacks and
OTEL_RESOURCE_ATTRIBUTES "a=b". -/
theorem c10_caller_config_unchanged_witness :
    StartConfigIsolation ⟨[[("team", "x")]], [⟨"cert", "key", "ca", false⟩]⟩
      ⟨"", "ep", "", true, 0, 0, false, 0, some 0, some 0⟩
      ⟨"svc", "", "", "a=b"⟩ :=
  c10_caller_config_unchanged _ _ _ (by
    constructor
    · intro r hr
      have h2 : some 0 = some r := hr
      obtain rfl : (0 : Nat) = r := Option.some.inj h2
      decide
    · intro r hr
      have h2 : some 0 = some r := hr
      obtain rfl : (0 : Nat) = r := Option.some.inj h2
      decide)

end Gintelemetry
